import Mathlib

/-!
Verification of the universe-map star catalog core against its specification.

The source is a single React/three.js page.  Its core logic is shallowly
embedded here:

* JavaScript values arriving from the CSV parser (strings, numbers, absent
  fields) are modelled by `JsVal`; JavaScript numbers by `JNum`, with exact
  rationals standing in for IEEE doubles (IEEE rounding and overflow of
  decimal literals to infinity are not modelled; NaN and the two infinities
  are modelled explicitly because the code's `isNaN` test depends on them).
* `parseFloat` follows the ECMAScript `parseFloat` grammar: leading
  whitespace, an optional sign, then either the literal `Infinity` or the
  longest decimal-literal prefix (digits, optional fraction, optional
  exponent); anything else yields NaN.
* The catalog normalizer, color mapper, search filter, point-set builder and
  selection state machine are translated from the source component.
-/

namespace UniverseMap

/-- JNum models a JavaScript number: an exact rational standing in for a
finite double, positive or negative infinity, or NaN. -/
inductive JNum where
  | fin (q : ℚ)
  | posInf
  | negInf
  | nan
deriving DecidableEq

/-- Truthiness of a JavaScript number: 0 (and -0) and NaN are falsy. -/
def JNum.truthy : JNum → Bool
  | .fin q => q != 0
  | .posInf => true
  | .negInf => true
  | .nan => false

/-- JNum.isNaN mirrors the JavaScript global `isNaN` applied to a number. -/
def JNum.isNaN : JNum → Bool
  | .nan => true
  | _ => false

/-- JNum.isFinite holds exactly for finite numbers (not NaN, not infinite). -/
def JNum.isFinite : JNum → Bool
  | .fin _ => true
  | _ => false

/-- JsVal models a JavaScript field value as delivered by the CSV parser or
passed around the component: absent (`undefined`), a string, or a number. -/
inductive JsVal where
  | undef
  | str (s : String)
  | num (n : JNum)
deriving DecidableEq

/-- Truthiness of a JavaScript value: `undefined`, the empty string, 0 and
NaN are falsy; every other string or number is truthy. -/
def JsVal.truthy : JsVal → Bool
  | .undef => false
  | .str s => s != ""
  | .num n => n.truthy

/-- Whitespace characters skipped by `parseFloat` (the ASCII part of the
ECMAScript StrWhiteSpace class). -/
def isJsSpace (c : Char) : Bool :=
  c = ' ' || c = '\t' || c = '\n' || c = '\r' || c = '\x0b' || c = '\x0c'

/-- takeDigits splits a character list into its longest decimal-digit prefix
and the remainder. -/
def takeDigits : List Char → List Char × List Char
  | [] => ([], [])
  | c :: cs =>
      if c.isDigit then
        let r := takeDigits cs
        (c :: r.1, r.2)
      else ([], c :: cs)

/-- digitsToNat reads a list of decimal digits as a natural number. -/
def digitsToNat (ds : List Char) : Nat :=
  ds.foldl (fun a c => 10 * a + (c.toNat - 48)) 0

/-- parseMantissa parses the longest `digits [. digits]` prefix, returning
its exact rational value and the remaining characters, or `none` when no
digit is present (which `parseFloat` turns into NaN). -/
def parseMantissa (cs : List Char) : Option (ℚ × List Char) :=
  let ipr := takeDigits cs
  match ipr.2 with
  | '.' :: r2 =>
      let fpr := takeDigits r2
      if ipr.1 = [] ∧ fpr.1 = [] then none
      else
        some ((digitsToNat ipr.1 : ℚ) + (digitsToNat fpr.1 : ℚ) / (10 : ℚ) ^ fpr.1.length,
          fpr.2)
  | _ => if ipr.1 = [] then none else some ((digitsToNat ipr.1 : ℚ), ipr.2)

/-- parseExpDigits reads the digit part of an exponent, if any. -/
def parseExpDigits (cs : List Char) : Option Nat :=
  let r := takeDigits cs
  if r.1 = [] then none else some (digitsToNat r.1)

/-- parseExpSigned reads an optionally signed exponent; a missing digit
sequence contributes exponent 0 (the exponent part is simply not consumed). -/
def parseExpSigned (cs : List Char) : Int :=
  match cs with
  | '+' :: r => ((parseExpDigits r).getD 0 : Nat)
  | '-' :: r => -(((parseExpDigits r).getD 0 : Nat) : Int)
  | r => ((parseExpDigits r).getD 0 : Nat)

/-- parseExp reads an `e`/`E` exponent part after the mantissa, if present. -/
def parseExp (cs : List Char) : Int :=
  match cs with
  | 'e' :: rest => parseExpSigned rest
  | 'E' :: rest => parseExpSigned rest
  | _ => 0

/-- applyExp multiplies a mantissa by the parsed power of ten. -/
def applyExp (m : ℚ) : Int → ℚ
  | .ofNat n => m * (10 : ℚ) ^ n
  | .negSucc n => m / (10 : ℚ) ^ (n + 1)

/-- startsWithChars tests whether the first list is a leading segment of the
second. -/
def startsWithChars : List Char → List Char → Bool
  | [], _ => true
  | _ :: _, [] => false
  | p :: ps, c :: cs => p == c && startsWithChars ps cs

/-- parseFloat models the JavaScript `parseFloat` builtin on a string: skip
leading whitespace, read an optional sign, then either the literal
`Infinity` or the longest decimal-literal prefix; otherwise NaN. -/
def parseFloat (s : String) : JNum :=
  let cs := s.toList.dropWhile isJsSpace
  let sgn : ℚ × List Char :=
    match cs with
    | '+' :: r => (1, r)
    | '-' :: r => (-1, r)
    | r => (1, r)
  if startsWithChars "Infinity".toList sgn.2 then
    if sgn.1 = 1 then JNum.posInf else JNum.negInf
  else
    match parseMantissa sgn.2 with
    | none => JNum.nan
    | some mr => JNum.fin (sgn.1 * applyExp mr.1 (parseExp mr.2))

/-- parseFloatV applies `parseFloat` to an arbitrary JavaScript value the
way the code does: `undefined` stringifies to "undefined" (NaN), and for a
number `parseFloat(String(v))` round-trips to the number itself (`"NaN"`
also parses back to NaN). -/
def parseFloatV : JsVal → JNum
  | .undef => JNum.nan
  | .str s => parseFloat s
  | .num n => n

/-- RawRow is one string-keyed row as delivered by the CSV parser, holding
just the fields the core reads: the coordinates, the color index, and the
three searched name fields.  Name fields are strings or absent; coordinate
and color-index fields may in principle carry any JavaScript value. -/
structure RawRow where
  x : JsVal := JsVal.undef
  y : JsVal := JsVal.undef
  z : JsVal := JsVal.undef
  ci : JsVal := JsVal.undef
  proper : Option String := none
  bayer : Option String := none
  gl : Option String := none
deriving DecidableEq

/-- validRow is the normalizer's row predicate, translated from
`row.x && row.y && row.z && !isNaN(parseFloat(row.x))`. -/
def validRow (r : RawRow) : Bool :=
  r.x.truthy && r.y.truthy && r.z.truthy && !(parseFloatV r.x).isNaN

/-- normalizeRows is the catalog normalizer: keep, in order, the rows the
validity predicate accepts. -/
def normalizeRows (rows : List RawRow) : List RawRow :=
  rows.filter validRow

/-- Modelled from the spec: the validity predicate as the specification
words it, "`x`, `y`, `z` are all present and `x` parses as a finite
number".  It differs from `validRow` only in demanding finiteness instead
of merely not-NaN; it exists to be compared against the code's predicate. -/
def specValidRow (r : RawRow) : Bool :=
  r.x.truthy && r.y.truthy && r.z.truthy && (parseFloatV r.x).isFinite

/-- ciValue is the color mapper's clamped index,
`Math.max(-0.4, Math.min(2, parseFloat(s.ci) || 0))`: NaN is replaced by 0
by the `|| 0` before clamping, and the infinities clamp to the bounds. -/
def ciValue : JNum → ℚ
  | .fin q => max (-2/5) (min 2 q)
  | .posInf => 2
  | .negInf => -2/5
  | .nan => 0

/-- colorMapper is the inline color computation of the point-set builder:
white for a falsy `ci`, otherwise the clamped blue-hot/red-cool formula. -/
def colorMapper (ci : JsVal) : ℚ × ℚ × ℚ :=
  if ci.truthy then
    let c := ciValue (parseFloatV ci)
    (min 1 (3/2 - c), min 1 (6/5 - |2/5 - c|), min 1 (9/5 * c))
  else (1, 1, 1)

/-- Modelled from the spec: the clamp-then-formula color the specification
prescribes for a numeric color index, used to compare the code's mapper
against the spec's words. -/
def specClampFormula (c : ℚ) : ℚ × ℚ × ℚ :=
  (min 1 (3/2 - c), min 1 (6/5 - |2/5 - c|), min 1 (9/5 * c))

/-- lowerChars lowercases a character list, modelling `toLowerCase` on the
ASCII range the catalog uses. -/
def lowerChars (l : List Char) : List Char :=
  l.map Char.toLower

/-- containsChars tests whether the pattern occurs as a contiguous run
inside the haystack, modelling JavaScript `String.prototype.includes`. -/
def containsChars (pat : List Char) : List Char → Bool
  | [] => startsWithChars pat []
  | c :: cs => startsWithChars pat (c :: cs) || containsChars pat cs

/-- fieldMatches is one disjunct of the search predicate,
`s.field && s.field.toLowerCase().includes(search.toLowerCase())`:
an absent field never matches, a present field must be truthy (nonempty)
and contain the lowercased query. -/
def fieldMatches (q : String) : Option String → Bool
  | none => false
  | some f => (!(f == "")) && containsChars (lowerChars q.toList) (lowerChars f.toList)

/-- rowMatches is the search filter's per-record predicate over the three
searched name fields. -/
def rowMatches (q : String) (s : RawRow) : Bool :=
  fieldMatches q s.proper || fieldMatches q s.bayer || fieldMatches q s.gl

/-- searchFilter is the search filter: queries of length at most one leave
the sequence unchanged, longer queries filter by `rowMatches`. -/
def searchFilter (stars : List RawRow) (q : String) : List RawRow :=
  if 1 < q.length then stars.filter (rowMatches q) else stars

/-- starTriple is the three position-buffer entries written for one record:
the raw parsed coordinates, in x, y, z order. -/
def starTriple (s : RawRow) : List JNum :=
  [parseFloatV s.x, parseFloatV s.y, parseFloatV s.z]

/-- colorTriple is the three color-buffer entries written for one record. -/
def colorTriple (s : RawRow) : List ℚ :=
  [(colorMapper s.ci).1, (colorMapper s.ci).2.1, (colorMapper s.ci).2.2]

/-- buildPositions is the point-set builder's position buffer, flattened in
input order. -/
def buildPositions : List RawRow → List JNum
  | [] => []
  | s :: rest => starTriple s ++ buildPositions rest

/-- buildColors is the point-set builder's color buffer, flattened in input
order. -/
def buildColors : List RawRow → List ℚ
  | [] => []
  | s :: rest => colorTriple s ++ buildColors rest

/-- ViewState is the page's mutable coordination state: loaded records,
current selection, query text, and the loading flag. -/
structure ViewState where
  stars : List RawRow
  selected : Option RawRow
  search : String
  loading : Bool
deriving DecidableEq

/-- Event enumerates the four handlers that touch the view state: catalog
load completion, a query change, a canvas click (carrying the ray-caster's
distance-sorted intersection indices), and the sidebar dismiss. -/
inductive Event where
  | loadComplete (rows : List RawRow)
  | setSearch (q : String)
  | click (intersections : List Nat)
  | dismiss
deriving DecidableEq

/-- handleClick is the picking engine's decision: with at least one
intersection report the first (closest) index, otherwise report nothing. -/
def handleClick : List Nat → Option Nat
  | [] => none
  | i :: _ => some i

/-- filteredView is the derived filtered record sequence the renderer and
the pick handler both consult. -/
def filteredView (st : ViewState) : List RawRow :=
  searchFilter st.stars st.search

/-- step is the selection/view state machine: load completion stores the
normalized rows and clears the loading flag, a query change stores the
query, a click resolves through `handleClick` and indexes the filtered
sequence, and dismiss clears the selection. -/
def step (st : ViewState) : Event → ViewState
  | .loadComplete rows => { st with stars := normalizeRows rows, loading := false }
  | .setSearch q => { st with search := q }
  | .click ints =>
      match handleClick ints with
      | none => st
      | some i => { st with selected := (filteredView st)[i]? }
  | .dismiss => { st with selected := none }

/-- sirius is the first end-to-end scenario row of the specification,
with CSV-delivered string coordinate values. -/
def sirius : RawRow :=
  { x := JsVal.str "1", y := JsVal.str "0", z := JsVal.str "0",
    ci := JsVal.str "0.5", proper := some "Sirius" }

/-- vega is the second end-to-end scenario row. -/
def vega : RawRow :=
  { x := JsVal.str "0", y := JsVal.str "1", z := JsVal.str "0",
    proper := some "Vega" }

/-- blankRow is the third end-to-end scenario row, whose `x` is empty. -/
def blankRow : RawRow :=
  { x := JsVal.str "", y := JsVal.str "0", z := JsVal.str "0" }

/-- infRow has an `x` that parses to positive infinity: not NaN, so the
code keeps it, yet not finite. -/
def infRow : RawRow :=
  { x := JsVal.str "Infinity", y := JsVal.str "1", z := JsVal.str "1" }

/-- rowYalpha is the named normalizer test case with non-numeric `y`. -/
def rowYalpha : RawRow :=
  { x := JsVal.str "1", y := JsVal.str "abc", z := JsVal.str "1" }

/-- rowXalpha is the named normalizer test case with non-numeric `x`. -/
def rowXalpha : RawRow :=
  { x := JsVal.str "abc", y := JsVal.str "1", z := JsVal.str "1" }

/-- rowYblank is the named normalizer test case with empty `y`. -/
def rowYblank : RawRow :=
  { x := JsVal.str "1", y := JsVal.str "", z := JsVal.str "1" }

/-- rowZeroNum carries the coordinate `x` as the number 0, a falsy but
legitimate finite coordinate. -/
def rowZeroNum : RawRow :=
  { x := JsVal.num (JNum.fin 0), y := JsVal.str "1", z := JsVal.str "1" }

/-- demoState is a small loaded state used to exercise the picking and
selection theorems on concrete input. -/
def demoState : ViewState :=
  { stars := [sirius], selected := none, search := "", loading := false }

end UniverseMap

namespace UniverseMap

/-- When the color index is truthy the mapper computes exactly the
clamp-then-formula color; this factors the code's branch for reuse. -/
theorem colorMapper_truthy (ci : JsVal) (h : ci.truthy = true) :
    colorMapper ci = specClampFormula (ciValue (parseFloatV ci)) := by
  simp only [colorMapper, h, if_true]
  rfl

/-- When the color index is falsy the mapper returns pure white. -/
theorem colorMapper_falsy (ci : JsVal) (h : ci.truthy = false) :
    colorMapper ci = (1, 1, 1) := by
  simp only [colorMapper, h, Bool.false_eq_true, if_false]

/-- Evaluation of the parser on the literal "1". -/
theorem parseFloat_one : parseFloat "1" = JNum.fin 1 := by
  have h : parseFloat "1" = JNum.fin (1 * applyExp ((digitsToNat ['1'] : ℚ)) (parseExp [])) :=
    rfl
  rw [h]
  norm_num [digitsToNat, parseExp, applyExp, show ('1').toNat = 49 from rfl]

/-- Evaluation of the parser on the literal "0". -/
theorem parseFloat_zero : parseFloat "0" = JNum.fin 0 := by
  have h : parseFloat "0" = JNum.fin (1 * applyExp ((digitsToNat ['0'] : ℚ)) (parseExp [])) :=
    rfl
  rw [h]
  norm_num [digitsToNat, parseExp, applyExp, show ('0').toNat = 48 from rfl]

/-- Evaluation of the parser on the literal "2". -/
theorem parseFloat_two : parseFloat "2" = JNum.fin 2 := by
  have h : parseFloat "2" = JNum.fin (1 * applyExp ((digitsToNat ['2'] : ℚ)) (parseExp [])) :=
    rfl
  rw [h]
  norm_num [digitsToNat, parseExp, applyExp, show ('2').toNat = 50 from rfl]

/-- Evaluation of the parser on the literal "0.5". -/
theorem parseFloat_half : parseFloat "0.5" = JNum.fin (1/2) := by
  have h : parseFloat "0.5" =
      JNum.fin (1 * applyExp
        ((digitsToNat ['0'] : ℚ) + (digitsToNat ['5'] : ℚ) / (10:ℚ) ^ (1:Nat)) (parseExp [])) :=
    rfl
  rw [h]
  norm_num [digitsToNat, parseExp, applyExp, show ('0').toNat = 48 from rfl,
    show ('5').toNat = 53 from rfl]

/-- Evaluation of the color mapper at the string "2": the red channel comes
out negative. -/
theorem colorMapper_two : colorMapper (JsVal.str "2") = (-1/2, -2/5, 1) := by
  rw [colorMapper_truthy _ (by decide)]
  show specClampFormula (ciValue (parseFloat "2")) = _
  rw [parseFloat_two]
  show specClampFormula (max (-2/5) (min 2 2)) = _
  rw [show max (-2/5 : ℚ) (min 2 2) = 2 by norm_num [min_def, max_def]]
  unfold specClampFormula
  rw [show |(2:ℚ)/5 - 2| = 8/5 by rw [abs_of_nonpos] <;> norm_num]
  norm_num [min_def]

/-- Evaluation of the color mapper at the truthy non-numeric string "abc":
the NaN from parsing is replaced by 0, yielding (1, 0.8, 0). -/
theorem colorMapper_abc : colorMapper (JsVal.str "abc") = (1, 4/5, 0) := by
  rw [colorMapper_truthy _ (by decide)]
  show specClampFormula (ciValue (parseFloat "abc")) = _
  rw [show parseFloat "abc" = JNum.nan from by decide]
  show specClampFormula 0 = _
  unfold specClampFormula
  rw [show |(2:ℚ)/5 - 0| = 2/5 by rw [abs_of_nonneg] <;> norm_num]
  norm_num [min_def]

/-- Evaluation of the color mapper at the string "0.5". -/
theorem colorMapper_half : colorMapper (JsVal.str "0.5") = (1, 1, 9/10) := by
  rw [colorMapper_truthy _ (by decide)]
  show specClampFormula (ciValue (parseFloat "0.5")) = _
  rw [parseFloat_half]
  show specClampFormula (max (-2/5) (min 2 (1/2))) = _
  rw [show max (-2/5 : ℚ) (min 2 (1/2)) = 1/2 by norm_num [min_def, max_def]]
  unfold specClampFormula
  rw [show |(2:ℚ)/5 - 1/2| = 1/10 by rw [abs_of_nonpos] <;> norm_num]
  norm_num [min_def]

/-- Evaluation of the spec's clamp-then-formula color at index 0. -/
theorem specClampFormula_zero : specClampFormula (max (-2/5) (min 2 0)) = (1, 4/5, 0) := by
  rw [show max (-2/5 : ℚ) (min 2 0) = 0 by norm_num [min_def, max_def]]
  unfold specClampFormula
  rw [show |(2:ℚ)/5 - 0| = 2/5 by rw [abs_of_nonneg] <;> norm_num]
  norm_num [min_def]

/-- The clamped color index always lies between -0.4 and 2. -/
theorem ciValue_bounds (v : JNum) : -2/5 ≤ ciValue v ∧ ciValue v ≤ 2 := by
  cases v with
  | fin q => exact ⟨le_max_left _ _, max_le (by norm_num) (min_le_left _ _)⟩
  | posInf => exact ⟨by norm_num [ciValue], by norm_num [ciValue]⟩
  | negInf => exact ⟨by norm_num [ciValue], by norm_num [ciValue]⟩
  | nan => exact ⟨by norm_num [ciValue], by norm_num [ciValue]⟩

/-- Over the clamp range the formula's channels lie in [-18/25, 1]: each is
capped at 1 by the outer min, and the least values are -1/2 (red, at c = 2),
-2/5 (green, at the ends) and -18/25 (blue, at c = -2/5). -/
theorem specClampFormula_bounds (c : ℚ) (h1 : -2/5 ≤ c) (h2 : c ≤ 2) :
    -18/25 ≤ (specClampFormula c).1 ∧ (specClampFormula c).1 ≤ 1 ∧
    -18/25 ≤ (specClampFormula c).2.1 ∧ (specClampFormula c).2.1 ≤ 1 ∧
    -18/25 ≤ (specClampFormula c).2.2 ∧ (specClampFormula c).2.2 ≤ 1 := by
  have habs : |2/5 - c| ≤ 8/5 := abs_le.mpr ⟨by linarith, by linarith⟩
  simp only [specClampFormula]
  refine ⟨le_min (by norm_num) (by linarith), min_le_left _ _,
    le_min (by norm_num) (by linarith), min_le_left _ _,
    le_min (by norm_num) (by linarith), min_le_left _ _⟩

/-- The position buffer holds three entries per record. -/
theorem buildPositions_length (l : List RawRow) :
    (buildPositions l).length = 3 * l.length := by
  induction l with
  | nil => rfl
  | cons s rest ih =>
      simp only [buildPositions, starTriple, List.length_append, List.length_cons,
        List.length_nil, ih]
      omega

/-- The color buffer holds three entries per record. -/
theorem buildColors_length (l : List RawRow) :
    (buildColors l).length = 3 * l.length := by
  induction l with
  | nil => rfl
  | cons s rest ih =>
      simp only [buildColors, colorTriple, List.length_append, List.length_cons,
        List.length_nil, ih]
      omega

/-- Dropping 3i entries of the position buffer lands exactly at record i's
triple. -/
theorem buildPositions_drop (l : List RawRow) (i : Nat) (h : i < l.length) :
    (buildPositions l).drop (3 * i) =
      starTriple (l.get ⟨i, h⟩) ++ buildPositions (l.drop (i + 1)) := by
  induction l generalizing i with
  | nil => exact absurd h (Nat.not_lt_zero i)
  | cons s rest ih =>
      cases i with
      | zero => simp [buildPositions, List.drop_succ_cons]
      | succ j =>
          have h3 : 3 * (j + 1) = 3 * j + 1 + 1 + 1 := by ring
          simp only [buildPositions, starTriple, List.cons_append, List.nil_append, h3,
            List.drop_succ_cons, List.get_cons_succ]
          exact ih j (Nat.lt_of_succ_lt_succ h)

/-- Dropping 3i entries of the color buffer lands exactly at record i's
triple. -/
theorem buildColors_drop (l : List RawRow) (i : Nat) (h : i < l.length) :
    (buildColors l).drop (3 * i) =
      colorTriple (l.get ⟨i, h⟩) ++ buildColors (l.drop (i + 1)) := by
  induction l generalizing i with
  | nil => exact absurd h (Nat.not_lt_zero i)
  | cons s rest ih =>
      cases i with
      | zero => simp [buildColors, List.drop_succ_cons]
      | succ j =>
          have h3 : 3 * (j + 1) = 3 * j + 1 + 1 + 1 := by ring
          simp only [buildColors, colorTriple, List.cons_append, List.nil_append, h3,
            List.drop_succ_cons, List.get_cons_succ]
          exact ih j (Nat.lt_of_succ_lt_succ h)

/-- A nonempty pattern never occurs inside the empty haystack. -/
theorem containsChars_nil (pat : List Char) (h : pat ≠ []) :
    containsChars pat [] = false := by
  cases pat with
  | nil => exact absurd rfl h
  | cons c cs => rfl

/-- For a nonempty query, a field disjunct holds exactly when the field is
present and contains the lowercased query; the code's extra truthiness guard
on the field is redundant because a nonempty pattern cannot occur in the
empty string. -/
theorem fieldMatches_iff (q : String) (hq : q.toList ≠ []) (f : Option String) :
    fieldMatches q f = true ↔
      ∃ p, f = some p ∧ containsChars (lowerChars q.toList) (lowerChars p.toList) = true := by
  have hpat : lowerChars q.toList ≠ [] := by
    simp only [lowerChars, ne_eq, List.map_eq_nil_iff]
    exact hq
  cases f with
  | none => simp [fieldMatches]
  | some p =>
      by_cases hp : p = ""
      · subst hp
        have hc : containsChars (lowerChars q.toList) (lowerChars "".toList) = false :=
          containsChars_nil _ hpat
        simp [fieldMatches]
        exact hc
      · simp [fieldMatches, hp]

/-- A query of length at most one leaves the record sequence unchanged. -/
theorem searchFilter_identity (stars : List RawRow) (q : String) (h : q.length ≤ 1) :
    searchFilter stars q = stars := by
  have : ¬(1 < q.length) := by omega
  simp [searchFilter, this]

/-- A string of length at least two has a nonempty character list. -/
theorem string_toList_ne (q : String) (h : 2 ≤ q.length) : q.toList ≠ [] := by
  intro hnil
  have hz : q.toList.length = 0 := by rw [hnil]; rfl
  have hlen : q.length = 0 := hz
  omega

end UniverseMap

namespace UniverseMap

/-- C1 (amended): the normalizer outputs exactly those rows, in input order,
whose `x`, `y`, `z` are all truthy and whose `x` parses to a non-NaN number
(JavaScript `!isNaN(parseFloat(x))`; infinite parses are accepted, so
"finite" is too strong); the named inclusion and exclusion examples hold. -/
theorem normalizer_keeps_truthy_nonNaN (rows : List RawRow) :
    normalizeRows rows =
      rows.filter (fun r =>
        r.x.truthy && r.y.truthy && r.z.truthy && !(parseFloatV r.x).isNaN) ∧
    List.Sublist (normalizeRows rows) rows ∧
    normalizeRows [rowYalpha] = [rowYalpha] ∧
    normalizeRows [rowXalpha] = [] ∧
    normalizeRows [rowYblank] = [] :=
  ⟨rfl, List.filter_sublist _, by decide, by decide, by decide⟩

/-- C1 counterexample: a row whose `x` is "Infinity" does not satisfy the
claim's "parses as a finite number" predicate, yet the normalizer keeps it,
so the normalizer's output is not the claimed row set. -/
theorem normalizer_finite_counterexample :
    normalizeRows [infRow] ≠ List.filter specValidRow [infRow] ∧
    normalizeRows [infRow] = [infRow] ∧
    specValidRow infRow = false ∧
    (parseFloatV infRow.x).isFinite = false :=
  ⟨by decide, by decide, by decide, by decide⟩

/-- C2 (amended): for every color-index input the mapper returns three
values each at most 1 and at least -18/25; the lower end of the claimed
interval [0, 1] is wrong because the formula's channels go negative for
in-range indices. -/
theorem colorMapper_channel_bounds (ci : JsVal) :
    -18/25 ≤ (colorMapper ci).1 ∧ (colorMapper ci).1 ≤ 1 ∧
    -18/25 ≤ (colorMapper ci).2.1 ∧ (colorMapper ci).2.1 ≤ 1 ∧
    -18/25 ≤ (colorMapper ci).2.2 ∧ (colorMapper ci).2.2 ≤ 1 := by
  cases h : ci.truthy with
  | false =>
      rw [colorMapper_falsy ci h]
      norm_num
  | true =>
      rw [colorMapper_truthy ci h]
      exact specClampFormula_bounds _ (ciValue_bounds _).1 (ciValue_bounds _).2

/-- C2 counterexample: at color index "2" the red channel is -1/2, which is
not in [0, 1]. -/
theorem colorMapper_unit_counterexample :
    ¬(0 ≤ (colorMapper (JsVal.str "2")).1) ∧ (colorMapper (JsVal.str "2")).1 = -1/2 := by
  have h : (colorMapper (JsVal.str "2")).1 = -1/2 := by rw [colorMapper_two]
  refine ⟨?_, h⟩
  rw [h]
  norm_num

/-- C3 (amended): a falsy `ci` (absent, empty string, 0, NaN) yields pure
white, but a truthy `ci` that does not parse as a number yields (1, 4/5, 0)
because the parse's NaN is replaced by 0 before the formula; both are
defined fallbacks, not errors. -/
theorem colorMapper_fallback_cases (ci : JsVal) :
    (ci.truthy = false → colorMapper ci = (1, 1, 1)) ∧
    (ci.truthy = true → (parseFloatV ci).isNaN = true → colorMapper ci = (1, 4/5, 0)) := by
  refine ⟨colorMapper_falsy ci, fun h hn => ?_⟩
  rw [colorMapper_truthy ci h]
  cases hp : parseFloatV ci with
  | nan =>
      show specClampFormula 0 = _
      unfold specClampFormula
      rw [show |(2:ℚ)/5 - 0| = 2/5 by rw [abs_of_nonneg] <;> norm_num]
      norm_num [min_def]
  | fin q => rw [hp] at hn; simp [JNum.isNaN] at hn
  | posInf => rw [hp] at hn; simp [JNum.isNaN] at hn
  | negInf => rw [hp] at hn; simp [JNum.isNaN] at hn

/-- C3 witness: the absent case gives white and the non-numeric truthy case
gives (1, 4/5, 0). -/
theorem colorMapper_fallback_witness :
    colorMapper JsVal.undef = (1, 1, 1) ∧ colorMapper (JsVal.str "abc") = (1, 4/5, 0) :=
  ⟨(colorMapper_fallback_cases JsVal.undef).1 rfl,
   (colorMapper_fallback_cases (JsVal.str "abc")).2 (by decide) (by decide)⟩

/-- C3 counterexample: the non-numeric color index "abc" is truthy and does
not parse, yet the mapper returns (1, 4/5, 0) rather than the claimed pure
white. -/
theorem colorMapper_white_counterexample :
    colorMapper (JsVal.str "abc") ≠ (1, 1, 1) ∧
    JsVal.truthy (JsVal.str "abc") = true ∧
    (parseFloatV (JsVal.str "abc")).isNaN = true ∧
    colorMapper (JsVal.str "abc") = (1, 4/5, 0) := by
  refine ⟨?_, by decide, by decide, colorMapper_abc⟩
  rw [colorMapper_abc]
  intro hcontr
  have h2 : (4:ℚ)/5 = 1 := congrArg (fun t => t.2.1) hcontr
  norm_num at h2

/-- C4 (amended): for every nonzero (hence truthy) finite numeric `ci` the
mapper clamps `c` to [-0.4, 2] and applies the spec's formula, and indices
below -0.4 or above 2 behave exactly as the respective bound; `ci = 0` is
excluded because it is falsy and takes the white fallback instead. -/
theorem colorMapper_clamp_truthy (q : ℚ) (hq : q ≠ 0) :
    colorMapper (JsVal.num (JNum.fin q)) = specClampFormula (max (-2/5) (min 2 q)) ∧
    (q ≤ -2/5 →
      colorMapper (JsVal.num (JNum.fin q)) = colorMapper (JsVal.num (JNum.fin (-2/5)))) ∧
    (2 ≤ q →
      colorMapper (JsVal.num (JNum.fin q)) = colorMapper (JsVal.num (JNum.fin 2))) := by
  have htr : (JsVal.num (JNum.fin q)).truthy = true := by
    simp [JsVal.truthy, JNum.truthy, hq]
  have hmain : colorMapper (JsVal.num (JNum.fin q)) =
      specClampFormula (max (-2/5) (min 2 q)) := by
    rw [colorMapper_truthy _ htr]
    rfl
  refine ⟨hmain, fun hle => ?_, fun hge => ?_⟩
  · have htr2 : (JsVal.num (JNum.fin (-2/5 : ℚ))).truthy = true := by
      norm_num [JsVal.truthy, JNum.truthy]
    rw [hmain, colorMapper_truthy _ htr2]
    show _ = specClampFormula (max (-2/5) (min 2 (-2/5 : ℚ)))
    rw [show min (2:ℚ) q = q from min_eq_right (by linarith),
      show max (-2/5 : ℚ) q = -2/5 from max_eq_left (by linarith),
      show min (2:ℚ) (-2/5) = -2/5 from min_eq_right (by norm_num), max_self]
  · have htr2 : (JsVal.num (JNum.fin (2 : ℚ))).truthy = true := by
      norm_num [JsVal.truthy, JNum.truthy]
    rw [hmain, colorMapper_truthy _ htr2]
    show _ = specClampFormula (max (-2/5) (min 2 (2 : ℚ)))
    rw [show min (2:ℚ) q = 2 from min_eq_left hge, min_self,
      show max (-2/5 : ℚ) 2 = 2 from max_eq_right (by norm_num)]

/-- C4 witness: at the nonzero index 3 the clamp-then-formula law holds and
3 behaves as the upper bound 2. -/
theorem colorMapper_clamp_witness :
    colorMapper (JsVal.num (JNum.fin 3)) = specClampFormula (max (-2/5) (min 2 3)) ∧
    colorMapper (JsVal.num (JNum.fin 3)) = colorMapper (JsVal.num (JNum.fin 2)) :=
  ⟨(colorMapper_clamp_truthy 3 (by norm_num)).1,
   (colorMapper_clamp_truthy 3 (by norm_num)).2.2 (by norm_num)⟩

/-- C4 counterexample: the numeric color index 0 is falsy, so the mapper
returns white instead of the claimed clamped formula value (1, 4/5, 0). -/
theorem colorMapper_formula_counterexample :
    colorMapper (JsVal.num (JNum.fin 0)) ≠ specClampFormula (max (-2/5) (min 2 0)) ∧
    colorMapper (JsVal.num (JNum.fin 0)) = (1, 1, 1) ∧
    specClampFormula (max (-2/5) (min 2 0)) = (1, 4/5, 0) := by
  have h1 : colorMapper (JsVal.num (JNum.fin 0)) = (1, 1, 1) :=
    colorMapper_falsy _ (by decide)
  refine ⟨?_, h1, specClampFormula_zero⟩
  rw [h1, specClampFormula_zero]
  intro hcontr
  have h3 : (1:ℚ) = 4/5 := congrArg (fun t => t.2.1) hcontr
  norm_num at h3

/-- C5: a query of length at most one returns the input unchanged, and a
query of length at least two returns the order-preserving subsequence of
exactly those records whose lowercased properName, bayerDesignation or
glieseId contains the lowercased query, absent fields never matching. -/
theorem search_filter_spec (stars : List RawRow) (q : String) :
    (q.length ≤ 1 → searchFilter stars q = stars) ∧
    (2 ≤ q.length →
      List.Sublist (searchFilter stars q) stars ∧
      ∀ r, r ∈ searchFilter stars q ↔
        r ∈ stars ∧
          ((∃ p, r.proper = some p ∧
              containsChars (lowerChars q.toList) (lowerChars p.toList) = true) ∨
           (∃ p, r.bayer = some p ∧
              containsChars (lowerChars q.toList) (lowerChars p.toList) = true) ∨
           (∃ p, r.gl = some p ∧
              containsChars (lowerChars q.toList) (lowerChars p.toList) = true))) := by
  refine ⟨searchFilter_identity stars q, fun h => ?_⟩
  have h1 : 1 < q.length := by omega
  have hq : q.toList ≠ [] := string_toList_ne q h
  constructor
  · simp only [searchFilter]
    rw [if_pos h1]
    exact List.filter_sublist _
  · intro r
    have key : rowMatches q r = true ↔
        ((∃ p, r.proper = some p ∧
            containsChars (lowerChars q.toList) (lowerChars p.toList) = true) ∨
         (∃ p, r.bayer = some p ∧
            containsChars (lowerChars q.toList) (lowerChars p.toList) = true) ∨
         (∃ p, r.gl = some p ∧
            containsChars (lowerChars q.toList) (lowerChars p.toList) = true)) := by
      simp only [rowMatches, Bool.or_eq_true, fieldMatches_iff q hq, or_assoc]
    simp only [searchFilter]
    rw [if_pos h1, List.mem_filter, key]

/-- C5 witness: the one-character query "s" is the identity on a concrete
sequence, and the query "sir" produces a subsequence of it. -/
theorem search_filter_witness :
    searchFilter [sirius, vega] "s" = [sirius, vega] ∧
    List.Sublist (searchFilter [sirius, vega] "sir") [sirius, vega] :=
  ⟨(search_filter_spec [sirius, vega] "s").1 (by decide),
   ((search_filter_spec [sirius, vega] "sir").2 (by decide)).1⟩

/-- C6: both buffers have length 3n, entries 3i..3i+2 of the position buffer
are the raw parsed x, y, z of record i, and entries 3i..3i+2 of the color
buffer are the mapper applied to record i's color index. -/
theorem point_buffers_aligned (stars : List RawRow) (i : Nat) (h : i < stars.length) :
    (buildPositions stars).length = 3 * stars.length ∧
    (buildColors stars).length = 3 * stars.length ∧
    ((buildPositions stars).drop (3 * i)).take 3 =
      [parseFloatV (stars.get ⟨i, h⟩).x, parseFloatV (stars.get ⟨i, h⟩).y,
        parseFloatV (stars.get ⟨i, h⟩).z] ∧
    ((buildColors stars).drop (3 * i)).take 3 =
      [(colorMapper (stars.get ⟨i, h⟩).ci).1, (colorMapper (stars.get ⟨i, h⟩).ci).2.1,
        (colorMapper (stars.get ⟨i, h⟩).ci).2.2] := by
  refine ⟨buildPositions_length stars, buildColors_length stars, ?_, ?_⟩
  · rw [buildPositions_drop stars i h]
    rfl
  · rw [buildColors_drop stars i h]
    rfl

/-- C6 witness: the alignment law evaluated on the one-record sequence at
index 0. -/
theorem point_buffers_aligned_witness :
    (buildPositions [sirius]).length = 3 * [sirius].length ∧
    (buildColors [sirius]).length = 3 * [sirius].length ∧
    ((buildPositions [sirius]).drop (3 * 0)).take 3 =
      [parseFloatV ([sirius].get ⟨0, by decide⟩).x,
        parseFloatV ([sirius].get ⟨0, by decide⟩).y,
        parseFloatV ([sirius].get ⟨0, by decide⟩).z] ∧
    ((buildColors [sirius]).drop (3 * 0)).take 3 =
      [(colorMapper ([sirius].get ⟨0, by decide⟩).ci).1,
        (colorMapper ([sirius].get ⟨0, by decide⟩).ci).2.1,
        (colorMapper ([sirius].get ⟨0, by decide⟩).ci).2.2] :=
  point_buffers_aligned [sirius] 0 (by decide)

/-- C7: on the three scenario rows, normalization keeps exactly Sirius and
Vega, the query "sir" selects exactly Sirius, and Sirius's point set is the
position buffer [1, 0, 0] with the color of index 0.5, namely (1, 1, 9/10). -/
theorem end_to_end_scenario :
    normalizeRows [sirius, vega, blankRow] = [sirius, vega] ∧
    searchFilter [sirius, vega] "sir" = [sirius] ∧
    buildPositions [sirius] = [JNum.fin 1, JNum.fin 0, JNum.fin 0] ∧
    buildColors [sirius] = [1, 1, 9/10] ∧
    colorMapper (JsVal.str "0.5") = (1, 1, 9/10) := by
  refine ⟨by decide, by decide, ?_, ?_, colorMapper_half⟩
  · show [parseFloat "1", parseFloat "0", parseFloat "0"] ++ [] = _
    rw [parseFloat_one, parseFloat_zero]
    rfl
  · show [(colorMapper (JsVal.str "0.5")).1, (colorMapper (JsVal.str "0.5")).2.1,
      (colorMapper (JsVal.str "0.5")).2.2] ++ [] = _
    rw [colorMapper_half]
    rfl

/-- C8: the selection is preserved by query changes, by load completion and
by clicks with no intersection; it changes only through a pick, which stores
the filtered record at the reported index, or a dismiss, which clears it. -/
theorem selection_transitions (st : ViewState) (q : String) (rows : List RawRow)
    (i : Nat) (rest : List Nat) :
    (step st (Event.setSearch q)).selected = st.selected ∧
    (step st (Event.loadComplete rows)).selected = st.selected ∧
    (step st Event.dismiss).selected = none ∧
    (step st (Event.click [])).selected = st.selected ∧
    (step st (Event.click (i :: rest))).selected = (filteredView st)[i]? :=
  ⟨rfl, rfl, rfl, rfl, rfl⟩

/-- C9: with at least one intersection the pick reports the first (closest)
index and the selection becomes the filtered record at that index; with no
intersection nothing is reported and the whole state is unchanged, a defined
no-op. -/
theorem picking_resolution (st : ViewState) (i : Nat) (rest : List Nat)
    (h : i < (filteredView st).length) :
    handleClick (i :: rest) = some i ∧
    (step st (Event.click (i :: rest))).selected = some ((filteredView st).get ⟨i, h⟩) ∧
    handleClick [] = none ∧
    step st (Event.click []) = st := by
  refine ⟨rfl, ?_, rfl, rfl⟩
  show (filteredView st)[i]? = some ((filteredView st).get ⟨i, h⟩)
  rw [List.getElem?_eq_getElem h]
  rfl

/-- C9 witness: picking index 0 in the loaded demo state selects Sirius, and
an intersection-free click leaves the state unchanged. -/
theorem picking_resolution_witness :
    handleClick [0] = some 0 ∧
    (step demoState (Event.click [0])).selected =
      some ((filteredView demoState).get ⟨0, by decide⟩) ∧
    handleClick [] = none ∧
    step demoState (Event.click []) = demoState :=
  picking_resolution demoState 0 [] (by decide)

/-- C10: any row with a falsy `x`, `y` or `z` — the empty string, but also
the number 0, which is nonetheless a finite legitimate coordinate — is
excluded by the normalizer's truthiness test. -/
theorem normalizer_truthiness (rows : List RawRow) (r : RawRow)
    (h : r.x.truthy = false ∨ r.y.truthy = false ∨ r.z.truthy = false) :
    r ∉ normalizeRows rows ∧
    JsVal.truthy (JsVal.num (JNum.fin 0)) = false ∧
    JsVal.truthy (JsVal.str "") = false ∧
    (JNum.fin 0).isFinite = true := by
  refine ⟨?_, by decide, by decide, by decide⟩
  intro hmem
  simp only [normalizeRows, List.mem_filter] at hmem
  have hv := hmem.2
  simp only [validRow, Bool.and_eq_true] at hv
  rcases h with h | h | h
  · rw [h] at hv; simp at hv
  · rw [h] at hv; simp at hv
  · rw [h] at hv; simp at hv

/-- C10 witness: a row whose `x` is the number 0 is excluded even from the
singleton catalog containing it. -/
theorem normalizer_truthiness_witness :
    rowZeroNum ∉ normalizeRows [rowZeroNum] ∧
    JsVal.truthy (JsVal.num (JNum.fin 0)) = false ∧
    JsVal.truthy (JsVal.str "") = false ∧
    (JNum.fin 0).isFinite = true :=
  normalizer_truthiness [rowZeroNum] rowZeroNum (Or.inl (by decide))

end UniverseMap
